import Mathlib

/-!
Shallow embedding of the annotation interaction and coordinate-transform
engine of the fileEditor client.

Sources embedded:
- src/client/src/types/pdf.ts        (data model)
- src/client/src/hooks/use-annotations.ts  (store operations)
- src/client/src/components/annotation-layer.tsx
  (coordinate transform, hit test, pointer handlers)
- src/client/src/lib/pdf-utils.ts    (export projector, hex color parser)

Coordinates and sizes are modelled as rationals; JavaScript truthiness
checks on optional fields are modelled explicitly (an absent field is
`none`, and an empty string is falsy where the code tests a string).
The nanoid-generated fresh id of `addAnnotation` is modelled as a value
supplied by the caller of the transition.  The name `Annot` abbreviates
the record the source declares under types/pdf.ts.
-/

/-- A 2D point, the plain x/y record used throughout annotation-layer.tsx. -/
structure Pt where
  x : ℚ
  y : ℚ
  deriving DecidableEq

/-- The `type` field of a stored record (types/pdf.ts). -/
inductive AnnKind where
  | text
  | highlight
  | drawing
  | eraser
  deriving DecidableEq

/-- The stored record of types/pdf.ts (interface with fields id, type, page,
x, y, width?, height?, content?, color, size, points?). -/
structure Annot where
  id : String
  type : AnnKind
  page : ℕ
  x : ℚ
  y : ℚ
  width : Option ℚ
  height : Option ℚ
  content : Option String
  color : String
  size : ℚ
  points : Option (List Pt)
  deriving DecidableEq

/-- The tool descriptor of types/pdf.ts. -/
inductive ToolType where
  | select
  | text
  | highlight
  | draw
  | eraser
  deriving DecidableEq

/-- Current tool, from types/pdf.ts. -/
structure Tool where
  type : ToolType
  color : String
  size : ℚ
  deriving DecidableEq

/-- Partial record passed to the store update, one optional entry per field
of the record (TypeScript Partial of the record type). -/
structure AnnotUpdate where
  id : Option String := none
  type : Option AnnKind := none
  page : Option ℕ := none
  x : Option ℚ := none
  y : Option ℚ := none
  width : Option ℚ := none
  height : Option ℚ := none
  content : Option String := none
  color : Option String := none
  size : Option ℚ := none
  points : Option (List Pt) := none
  deriving DecidableEq

/-- Object spread of use-annotations.ts line 25: fields present in the
update override the record, all others are kept. -/
def applyUpdates (u : AnnotUpdate) (a : Annot) : Annot :=
  { id := u.id.getD a.id
    type := u.type.getD a.type
    page := u.page.getD a.page
    x := u.x.getD a.x
    y := u.y.getD a.y
    width := match u.width with | some w => some w | none => a.width
    height := match u.height with | some h => some h | none => a.height
    content := match u.content with | some c => some c | none => a.content
    color := u.color.getD a.color
    size := u.size.getD a.size
    points := match u.points with | some ps => some ps | none => a.points }

/-- addAnnotation of use-annotations.ts: appends the record, preserving
insertion order.  The nanoid fresh id is already on the record. -/
def addAnnot (anns : List Annot) (a : Annot) : List Annot :=
  anns ++ [a]

/-- updateAnnotation of use-annotations.ts: map over the list, spreading
the updates into the record whose id matches. -/
def updateAnnot (i : String) (u : AnnotUpdate) (anns : List Annot) : List Annot :=
  anns.map fun a => if a.id = i then applyUpdates u a else a

/-- removeAnnotation of use-annotations.ts: filter the record out. -/
def removeAnnot (i : String) (anns : List Annot) : List Annot :=
  anns.filter fun a => decide (a.id ≠ i)

/-- getCanvasCoordinates of annotation-layer.tsx lines 40-49: maps a client
pointer position to document space given the canvas bounding rectangle
origin, the pan offset and the zoom. -/
def getCanvasCoordinates (clientX clientY rectLeft rectTop : ℚ) (panOffset : Pt)
    (zoom : ℚ) : Pt :=
  ⟨(clientX - rectLeft - panOffset.x) / zoom, (clientY - rectTop - panOffset.y) / zoom⟩

/-- toDocumentSpace of the contract: getCanvasCoordinates with the canvas
origin (bounding-rectangle left/top) at 0. -/
def toDocumentSpace (p : Pt) (zoom : ℚ) (panOffset : Pt) : Pt :=
  getCanvasCoordinates p.x p.y 0 0 panOffset zoom

/-- toCanvasSpace of the contract: redrawCanvas of annotation-layer.tsx
draws every stored document coordinate at coordinate * zoom. -/
def toCanvasSpace (p : Pt) (zoom : ℚ) : Pt :=
  ⟨p.x * zoom, p.y * zoom⟩

/-- Componentwise point addition (the pan offset is added to canvas
positions as a rendering-time translation). -/
def ptAdd (p q : Pt) : Pt :=
  ⟨p.x + q.x, p.y + q.y⟩

/-- C1: round-trip of the coordinate transform.  For every point P, zoom z
in the bounded range and pan offset O, mapping P to canvas space, adding
the pan offset and mapping back to document space returns P within 1e-6
per component. -/
theorem roundTrip_transform (P O : Pt) (z : ℚ) (h1 : 1 / 2 ≤ z) (h2 : z ≤ 3) :
    |(toDocumentSpace (ptAdd (toCanvasSpace P z) O) z O).x - P.x| ≤ 1 / 1000000 ∧
    |(toDocumentSpace (ptAdd (toCanvasSpace P z) O) z O).y - P.y| ≤ 1 / 1000000 := by
  have hz : z ≠ 0 := by
    intro h
    rw [h] at h1
    norm_num at h1
  have hx : (toDocumentSpace (ptAdd (toCanvasSpace P z) O) z O).x = P.x := by
    simp only [toDocumentSpace, getCanvasCoordinates, ptAdd, toCanvasSpace]
    field_simp
  have hy : (toDocumentSpace (ptAdd (toCanvasSpace P z) O) z O).y = P.y := by
    simp only [toDocumentSpace, getCanvasCoordinates, ptAdd, toCanvasSpace]
    field_simp
  rw [hx, hy]
  norm_num

theorem roundTrip_transform_witness :
    |(toDocumentSpace (ptAdd (toCanvasSpace ⟨10, 20⟩ 2) ⟨3, 4⟩) 2 ⟨3, 4⟩).x - (10 : ℚ)| ≤ 1 / 1000000 ∧
    |(toDocumentSpace (ptAdd (toCanvasSpace ⟨10, 20⟩ 2) ⟨3, 4⟩) 2 ⟨3, 4⟩).y - (20 : ℚ)| ≤ 1 / 1000000 :=
  roundTrip_transform ⟨10, 20⟩ ⟨3, 4⟩ 2 (by norm_num) (by norm_num)

/-- Sample record used by concrete counterexamples and witnesses. -/
def exAnnotA : Annot :=
  ⟨"a", AnnKind.text, 1, 0, 0, none, none, some "hi", "#ef4444", 2, none⟩

/-- C6 counterexample: the object spread lets an update carrying an `id`
entry change a record's id, so the frame condition fails for an arbitrary
partial-fields argument. -/
theorem update_can_change_id :
    (updateAnnot ("a") { id := some ("b") } [exAnnotA]).map Annot.id ≠
      [exAnnotA].map Annot.id := by
  decide

/-- C6 amended: for every update whose partial-fields argument does not
itself carry an id, kind or page entry, the id, kind and page of every
record are unchanged by the update. -/
theorem update_frame_identity_fields (i : String) (u : AnnotUpdate) (anns : List Annot)
    (hid : u.id = none) (htype : u.type = none) (hpage : u.page = none) :
    (updateAnnot i u anns).map (fun a => (a.id, a.type, a.page)) =
      anns.map fun a => (a.id, a.type, a.page) := by
  unfold updateAnnot
  rw [List.map_map]
  apply List.map_congr_left
  intro a _
  by_cases h : a.id = i
  · simp [h, applyUpdates, hid, htype, hpage]
  · simp [h]

theorem update_frame_identity_fields_witness :
    (updateAnnot ("a") { x := some 5 } [exAnnotA]).map (fun a => (a.id, a.type, a.page)) =
      [exAnnotA].map fun a => (a.id, a.type, a.page) :=
  update_frame_identity_fields ("a") { x := some 5 } [exAnnotA] rfl rfl rfl

/-- C7: an update or remove whose id is absent from the store leaves the
store exactly unchanged. -/
theorem missing_target_noop (i : String) (u : AnnotUpdate) (anns : List Annot)
    (h : ∀ a ∈ anns, a.id ≠ i) :
    updateAnnot i u anns = anns ∧ removeAnnot i anns = anns := by
  constructor
  · unfold updateAnnot
    conv_rhs => rw [← List.map_id anns]
    apply List.map_congr_left
    intro a ha
    simp [h a ha]
  · unfold removeAnnot
    rw [List.filter_eq_self]
    intro a ha
    simp [h a ha]

theorem missing_target_noop_witness :
    updateAnnot ("zzz") { x := some 1 } [exAnnotA] = [exAnnotA] ∧
    removeAnnot ("zzz") [exAnnotA] = [exAnnotA] :=
  missing_target_noop ("zzz") { x := some 1 } [exAnnotA] (by decide)

/-- The JS expression `value || fallback` on an optional number: an absent
value falls back, and so does a present zero, because 0 is falsy.  Used
for `annotation.width || 100` and `annotation.height || 20` in both the
hit test (annotation-layer.tsx lines 86-87) and the export projector
(pdf-utils.ts lines 75-76). -/
def orDefault (v : Option ℚ) (d : ℚ) : ℚ :=
  match v with
  | some w => if w = 0 then d else w
  | none => d

/-- isPointInTextAnnotation of annotation-layer.tsx lines 52-65.  The JS
guard `annotation.type !== 'text' || !annotation.content` makes an absent
or empty content string fail the test. -/
def isPointInTextAnnot (p : Pt) (a : Annot) : Bool :=
  match a.content with
  | none => false
  | some c =>
    if a.type ≠ AnnKind.text ∨ c = "" then false
    else
      let textWidth : ℚ := (c.length : ℚ) * (a.size * 6)
      let textHeight : ℚ := a.size * 12
      decide (a.x ≤ p.x ∧ p.x ≤ a.x + textWidth ∧
        a.y - textHeight ≤ p.y ∧ p.y ≤ a.y)

/-- findAnnotationAtPoint of annotation-layer.tsx lines 68-102.  Each of
the two for-loops runs from the last index down to 0 and returns the first
match; that is find? on the reversed list.  The second loop only handles
highlights, with `width || 100` and `height || 20` falsy defaults: an
absent or zero stored size falls back to 100 x 20. -/
def findAnnotAtPoint (anns : List Annot) (page : ℕ) (p : Pt) : Option Annot :=
  match anns.reverse.find? (fun a =>
      decide (a.page = page ∧ a.type = AnnKind.text) && isPointInTextAnnot p a) with
  | some a => some a
  | none =>
    anns.reverse.find? fun a =>
      decide (a.page = page ∧ a.type = AnnKind.highlight ∧
        a.x ≤ p.x ∧ p.x ≤ a.x + orDefault a.width 100 ∧
        a.y ≤ p.y ∧ p.y ≤ a.y + orDefault a.height 20)

/-- Text hit predicate as the claim words it: bounds
[x, x + len(content)*size*6] x [y - size*12, y], content length read off
the record. -/
def specTextHit (p : Pt) (page : ℕ) (a : Annot) : Bool :=
  decide (a.page = page ∧ a.type = AnnKind.text ∧
    a.x ≤ p.x ∧ p.x ≤ a.x + ((a.content.getD "").length : ℚ) * (a.size * 6) ∧
    a.y - a.size * 12 ≤ p.y ∧ p.y ≤ a.y)

/-- Highlight hit predicate of the amended claim: rectangle
[x, x + w] x [y, y + h] where w and h are the stored width/height with
the code's falsy defaults - an absent or zero value falls back to
100 / 20.  (The original claim read the stored width/height directly,
which fails at a present-but-zero size; see the counterexample.) -/
def specHighlightHit (p : Pt) (page : ℕ) (a : Annot) : Bool :=
  decide (a.page = page ∧ a.type = AnnKind.highlight ∧
    a.x ≤ p.x ∧ p.x ≤ a.x + orDefault a.width 100 ∧
    a.y ≤ p.y ∧ p.y ≤ a.y + orDefault a.height 20)

theorem find_congr_pred {α : Type} (f g : α → Bool) (l : List α)
    (h : ∀ a ∈ l, f a = g a) : l.find? f = l.find? g := by
  induction l with
  | nil => rfl
  | cons b t ih =>
    have hb := h b (List.mem_cons_self b t)
    by_cases hg : g b = true
    · rw [List.find?_cons_of_pos _ (hb.trans hg), List.find?_cons_of_pos _ hg]
    · have hf : ¬f b = true := fun hc => hg (hb.symm.trans hc)
      rw [List.find?_cons_of_neg _ hf, List.find?_cons_of_neg _ hg]
      exact ih fun a ha => h a (List.mem_cons_of_mem b ha)

/-- C5 as amended: hit-test priority and order, with the highlight
rectangle read through the code's falsy size defaults (an absent or zero
stored width/height falls back to 100 / 20).  Under the data-model
invariant that text records carry a nonempty content string, the hit test
returns the most recently inserted text record of the page whose
estimated bounds contain the point, falling back to the most recently
inserted matching highlight only when no text record matches, and never
returns a drawing.  (The original claim's rectangle used the stored
width/height directly, which the code contradicts at a present-but-zero
size; see the counterexample.) -/
theorem hitTest_priority_and_order (anns : List Annot) (page : ℕ) (p : Pt)
    (hco : ∀ a ∈ anns, a.type = AnnKind.text → ∃ c, a.content = some c ∧ c ≠ "") :
    findAnnotAtPoint anns page p =
      Option.orElse (anns.reverse.find? (specTextHit p page))
        (fun _ => anns.reverse.find? (specHighlightHit p page)) ∧
    ∀ a, findAnnotAtPoint anns page p = some a → a.type ≠ AnnKind.drawing := by
  have hpt : ∀ a ∈ anns.reverse,
      (decide (a.page = page ∧ a.type = AnnKind.text) && isPointInTextAnnot p a) =
        specTextHit p page a := by
    intro a ha
    rw [List.mem_reverse] at ha
    by_cases ht : a.type = AnnKind.text
    · obtain ⟨c, hc, hcne⟩ := hco a ha ht
      simp only [isPointInTextAnnot, specTextHit, hc, ht]
      simp [hcne, decide_eq_decide]
    · simp only [isPointInTextAnnot, specTextHit]
      match hc : a.content with
      | none => simp [ht]
      | some c => simp [ht]
  constructor
  · unfold findAnnotAtPoint
    rw [find_congr_pred _ _ _ hpt]
    cases anns.reverse.find? (specTextHit p page) with
    | some a => rfl
    | none => rfl
  · intro a ha
    unfold findAnnotAtPoint at ha
    cases hf : anns.reverse.find? (fun a =>
        decide (a.page = page ∧ a.type = AnnKind.text) && isPointInTextAnnot p a) with
    | some b =>
      rw [hf] at ha
      have hb := List.find?_some hf
      cases ha
      rw [Bool.and_eq_true, decide_eq_true_eq] at hb
      rw [hb.1.2]
      intro hcontra
      cases hcontra
    | none =>
      rw [hf] at ha
      have hb := List.find?_some ha
      rw [decide_eq_true_eq] at hb
      rw [hb.2.1]
      intro hcontra
      cases hcontra

/-- Sample records for the hit-test witness: a text record inserted before
a highlight whose rectangle also covers the probe point. -/
def exTextT1 : Annot :=
  ⟨"t1", AnnKind.text, 1, 10, 10, none, none, some "x", "#ef4444", 2, none⟩

def exHighlightH1 : Annot :=
  ⟨"h1", AnnKind.highlight, 1, 0, 0, some 100, some 20, none, "#eab308", 2, none⟩

theorem hitTest_priority_and_order_witness :
    findAnnotAtPoint [exTextT1, exHighlightH1] 1 ⟨15, 8⟩ = some exTextT1 := by
  have hco : ∀ a ∈ [exTextT1, exHighlightH1], a.type = AnnKind.text →
      ∃ c, a.content = some c ∧ c ≠ "" := by
    intro a ha ht
    simp only [List.mem_cons, List.not_mem_nil, or_false] at ha
    rcases ha with rfl | rfl
    · exact ⟨"x", rfl, by decide⟩
    · exact absurd ht (by decide)
  have h := hitTest_priority_and_order [exTextT1, exHighlightH1] 1 ⟨15, 8⟩ hco
  rw [h.1]
  have hrev : ([exTextT1, exHighlightH1] : List Annot).reverse = [exHighlightH1, exTextT1] := rfl
  have hlen : ("x" : String).length = 1 := rfl
  have h1 : specTextHit ⟨15, 8⟩ 1 exHighlightH1 = false := by
    simp [specTextHit, exHighlightH1]
  have h2 : specTextHit ⟨15, 8⟩ 1 exTextT1 = true := by
    simp only [specTextHit, exTextT1, Option.getD, hlen, decide_eq_true_eq]
    norm_num
  rw [hrev]
  rw [List.find?_cons_of_neg _ (by rw [h1]; exact Bool.false_ne_true)]
  rw [List.find?_cons_of_pos _ h2]
  rfl

/-- Highlight whose stored width and height are present but zero, for the
hit-test counterexample: in JS both are falsy, so the code hit-tests the
100 x 20 default box. -/
def exZeroHl : Annot :=
  ⟨"z1", AnnKind.highlight, 1, 0, 0, some 0, some 0, none, "#eab308", 2, none⟩

/-- C5 counterexample: the hit test returns the zero-size highlight at
point (50, 10), although the claimed rectangle [x, x + width] x
[y, y + height] - built from the stored width 0 and height 0, the 100/20
default applying only to an omitted field - does not contain the point. -/
theorem hitTest_zero_size_highlight :
    findAnnotAtPoint [exZeroHl] 1 ⟨50, 10⟩ = some exZeroHl ∧
    ¬(exZeroHl.x ≤ 50 ∧ (50 : ℚ) ≤ exZeroHl.x + exZeroHl.width.getD 100 ∧
      exZeroHl.y ≤ 10 ∧ (10 : ℚ) ≤ exZeroHl.y + exZeroHl.height.getD 20) := by
  constructor
  · unfold findAnnotAtPoint
    rw [show ([exZeroHl] : List Annot).reverse = [exZeroHl] from rfl]
    rw [List.find?_cons_of_neg _ (by simp [exZeroHl, isPointInTextAnnot])]
    rw [List.find?_nil]
    rw [List.find?_cons_of_pos _ ?hpos]
    case hpos =>
      rw [decide_eq_true_eq]
      norm_num [exZeroHl, orDefault]
  · norm_num [exZeroHl]

/-- Parsed color triple, the r/g/b object returned by hexToRgb. -/
structure Rgb where
  r : ℕ
  g : ℕ
  b : ℕ
  deriving DecidableEq

/-- Character class [a-f\d] of the hexToRgb regex under the i flag:
code points of 0-9, a-f and A-F. -/
def isHexDigitChar (c : Char) : Bool :=
  decide ((48 ≤ c.toNat ∧ c.toNat ≤ 57) ∨ (97 ≤ c.toNat ∧ c.toNat ≤ 102) ∨
    (65 ≤ c.toNat ∧ c.toNat ≤ 70))

/-- Value of a single hex digit as parseInt(-, 16) reads it. -/
def hexDigitVal (c : Char) : ℕ :=
  if c.toNat ≤ 57 then c.toNat - 48
  else if 97 ≤ c.toNat then c.toNat - 87
  else c.toNat - 55

/-- One optional leading hash of the anchored regex ^#?...$. -/
def stripHash : List Char → List Char
  | '#' :: t => t
  | t => t

/-- Body of hexToRgb once the optional hash is consumed: exactly six
hex-digit characters parse into the three parseInt(-, 16) bytes; anything
else falls to the black default. -/
def hexBody (cs : List Char) : Rgb :=
  match cs with
  | [c1, c2, c3, c4, c5, c6] =>
      if isHexDigitChar c1 && isHexDigitChar c2 && isHexDigitChar c3 &&
          isHexDigitChar c4 && isHexDigitChar c5 && isHexDigitChar c6 then
        ⟨16 * hexDigitVal c1 + hexDigitVal c2,
          16 * hexDigitVal c3 + hexDigitVal c4,
          16 * hexDigitVal c5 + hexDigitVal c6⟩
      else ⟨0, 0, 0⟩
  | _ => ⟨0, 0, 0⟩

/-- hexToRgb of pdf-utils.ts lines 114-123. -/
def hexToRgb (hex : String) : Rgb :=
  hexBody (stripHash hex.data)

/-- The triple that a six-hex-digit character list denotes. -/
def byteTripleOf (t : List Char) : Rgb :=
  match t with
  | [c1, c2, c3, c4, c5, c6] =>
      ⟨16 * hexDigitVal c1 + hexDigitVal c2,
        16 * hexDigitVal c3 + hexDigitVal c4,
        16 * hexDigitVal c5 + hexDigitVal c6⟩
  | _ => ⟨0, 0, 0⟩

theorem hexDigitVal_le (c : Char) (h : isHexDigitChar c = true) :
    hexDigitVal c ≤ 15 := by
  unfold isHexDigitChar at h
  rw [decide_eq_true_eq] at h
  unfold hexDigitVal
  rcases h with h | h | h
  · split
    · omega
    · split <;> omega
  · split
    · omega
    · split <;> omega
  · split
    · omega
    · split <;> omega

theorem stripHash_no_hash (l : List Char) (h : ∀ t, l ≠ '#' :: t) :
    stripHash l = l := by
  unfold stripHash
  split
  next t => exact absurd rfl (h t)
  next => rfl

theorem hexBody_le (cs : List Char) :
    (hexBody cs).r ≤ 255 ∧ (hexBody cs).g ≤ 255 ∧ (hexBody cs).b ≤ 255 := by
  unfold hexBody
  split
  · split
    · next c1 c2 c3 c4 c5 c6 h =>
      simp only [Bool.and_eq_true] at h
      obtain ⟨⟨⟨⟨⟨h1, h2⟩, h3⟩, h4⟩, h5⟩, h6⟩ := h
      have := hexDigitVal_le c1 h1
      have := hexDigitVal_le c2 h2
      have := hexDigitVal_le c3 h3
      have := hexDigitVal_le c4 h4
      have := hexDigitVal_le c5 h5
      have := hexDigitVal_le c6 h6
      refine ⟨?_, ?_, ?_⟩ <;> dsimp only <;> omega
    · exact ⟨by decide, by decide, by decide⟩
  · exact ⟨by decide, by decide, by decide⟩

theorem hexBody_valid (cs : List Char) (hlen : cs.length = 6)
    (hhex : ∀ c ∈ cs, isHexDigitChar c = true) :
    hexBody cs = byteTripleOf cs := by
  match cs with
  | [c1, c2, c3, c4, c5, c6] =>
    unfold hexBody byteTripleOf
    have h1 := hhex c1 (by simp)
    have h2 := hhex c2 (by simp)
    have h3 := hhex c3 (by simp)
    have h4 := hhex c4 (by simp)
    have h5 := hhex c5 (by simp)
    have h6 := hhex c6 (by simp)
    simp [h1, h2, h3, h4, h5, h6]
  | [] => simp at hlen
  | [a] => simp at hlen
  | [a, b] => simp at hlen
  | [a, b, c] => simp at hlen
  | [a, b, c, d] => simp at hlen
  | [a, b, c, d, e] => simp at hlen
  | a :: b :: c :: d :: e :: f :: g :: t => simp at hlen

theorem hexBody_invalid (cs : List Char)
    (h : ¬(cs.length = 6 ∧ ∀ c ∈ cs, isHexDigitChar c = true)) :
    hexBody cs = ⟨0, 0, 0⟩ := by
  unfold hexBody
  split
  · next c1 c2 c3 c4 c5 c6 =>
    split
    · next hall =>
      simp only [Bool.and_eq_true] at hall
      obtain ⟨⟨⟨⟨⟨h1, h2⟩, h3⟩, h4⟩, h5⟩, h6⟩ := hall
      exfalso
      apply h
      refine ⟨rfl, ?_⟩
      intro c hc
      simp only [List.mem_cons, List.not_mem_nil, or_false] at hc
      rcases hc with rfl | rfl | rfl | rfl | rfl | rfl
      exacts [h1, h2, h3, h4, h5, h6]
    · rfl
  · rfl

/-- C10: totality of the export hex parser.  Every input yields a triple of
bytes; an optionally hash-prefixed six-hex-digit string yields the denoted
triple, and every other string yields black. -/
theorem hexToRgb_total (s : String) :
    (hexToRgb s).r ≤ 255 ∧ (hexToRgb s).g ≤ 255 ∧ (hexToRgb s).b ≤ 255 ∧
    (∀ t, (s.data = '#' :: t ∨ s.data = t) → t.length = 6 →
      (∀ c ∈ t, isHexDigitChar c = true) → hexToRgb s = byteTripleOf t) ∧
    ((∀ t, (s.data = '#' :: t ∨ s.data = t) →
      ¬(t.length = 6 ∧ ∀ c ∈ t, isHexDigitChar c = true)) → hexToRgb s = ⟨0, 0, 0⟩) := by
  refine ⟨(hexBody_le _).1, (hexBody_le _).2.1, (hexBody_le _).2.2, ?_, ?_⟩
  · intro t hform hlen hhex
    rcases hform with hform | hform
    · have hstrip : stripHash s.data = t := by rw [hform]; rfl
      unfold hexToRgb
      rw [hstrip]
      exact hexBody_valid t hlen hhex
    · by_cases hh : ∃ u, t = '#' :: u
      · obtain ⟨u, rfl⟩ := hh
        have : isHexDigitChar '#' = true := hhex '#' (by simp)
        exact absurd this (by decide)
      · have hstrip : stripHash s.data = t := by
          rw [hform]
          exact stripHash_no_hash t fun v hv => hh ⟨v, hv⟩
        unfold hexToRgb
        rw [hstrip]
        exact hexBody_valid t hlen hhex
  · intro hno
    unfold hexToRgb
    by_cases hh : ∃ u, s.data = '#' :: u
    · obtain ⟨u, hu⟩ := hh
      have hstrip : stripHash s.data = u := by rw [hu]; rfl
      rw [hstrip]
      exact hexBody_invalid u (hno u (Or.inl hu))
    · have hstrip : stripHash s.data = s.data :=
        stripHash_no_hash s.data fun t ht => hh ⟨t, ht⟩
      rw [hstrip]
      exact hexBody_invalid s.data (hno s.data (Or.inr rfl))

theorem hexToRgb_total_witness :
    hexToRgb ("#ff007f") = ⟨255, 0, 127⟩ ∧ hexToRgb ("oops") = ⟨0, 0, 0⟩ := by
  constructor
  · have h := (hexToRgb_total ("#ff007f")).2.2.2.1 ['f', 'f', '0', '0', '7', 'f']
      (Or.inl (by decide)) (by decide) (by decide)
    rw [h]
    decide
  · have h := (hexToRgb_total ("oops")).2.2.2.2 ?hno
    case hno =>
      intro t ht hc
      obtain ⟨hlen6, _⟩ := hc
      have hfour : ("oops" : String).data.length = 4 := by decide
      rcases ht with ht | ht
      · rw [ht] at hfour
        simp only [List.length_cons] at hfour
        omega
      · rw [ht] at hfour
        omega
    exact h

/-- Native draw operation emitted by the export projector: the pdf-lib
calls drawText, drawRectangle and drawLine of pdf-utils.ts (the rgb()
normalization by 255 is a constant rendering transform kept outside the
operation). -/
inductive DrawOp where
  | drawText (x y : ℚ) (size : ℚ) (content : String) (color : Rgb)
  | drawRectangle (x y width height : ℚ) (color : Rgb) (opacity : ℚ)
  | drawLine (startX startY endX endY : ℚ) (thickness : ℚ) (color : Rgb)
  deriving DecidableEq

/-- Per-record body of the page loop of exportPdfWithAnnotations
(pdf-utils.ts lines 59-108): pdfX = x, pdfY = height - y, then one branch
per kind; JS truthiness makes an absent or empty content string skip the
text branch, `annotation.width || 100` and `annotation.height || 20`
make an absent or zero highlight size fall back to 100 x 20, and
`annotation.size || 2` makes a zero stroke width fall back to 2. -/
def projectAnnot (height : ℚ) (a : Annot) : List DrawOp :=
  let pdfX := a.x
  let pdfY := height - a.y
  if a.type = AnnKind.text then
    match a.content with
    | some c =>
        if c = "" then []
        else [DrawOp.drawText pdfX pdfY (a.size * 8) c (hexToRgb a.color)]
    | none => []
  else if a.type = AnnKind.highlight then
    [DrawOp.drawRectangle pdfX (pdfY - orDefault a.height 20) (orDefault a.width 100)
      (orDefault a.height 20) (hexToRgb a.color) (3 / 10)]
  else if a.type = AnnKind.drawing then
    match a.points with
    | some ps =>
        if 1 < ps.length then
          (ps.zip ps.tail).map fun pq =>
            DrawOp.drawLine pq.1.x (height - pq.1.y) pq.2.x (height - pq.2.y)
              (if a.size = 0 then 2 else a.size) (hexToRgb a.color)
        else []
    | none => []
  else []

/-- All operations of one exported page, in record order. -/
def exportPageOps (height : ℚ) (anns : List Annot) : List DrawOp :=
  anns.flatMap (projectAnnot height)

theorem zip_tail_short (ps : List Pt) (h : ¬1 < ps.length) :
    ps.zip ps.tail = [] := by
  match ps with
  | [] => rfl
  | [p] => rfl
  | p :: q :: t => simp at h

/-- C2 as amended: export coordinate inversion with the code's falsy size
defaults.  Every emitted operation has its vertical coordinate flipped as
height - documentY: text at (x, H - y); a highlight becomes a rectangle
at (x, H - y - h) of width w and height h at 30% opacity, where w and h
are the stored width/height with an absent or zero value falling back to
100 / 20 (`width || 100`, `height || 20`); one line segment per
consecutive point pair of a drawing with both endpoint ordinates flipped;
in particular text at (50, 100) on a page of height 800 lands at native
y = 700.  (The original claim read the stored width/height directly,
which the code contradicts at a present-but-zero size; see the
counterexample.) -/
theorem export_coordinate_inversion (H : ℚ) (a : Annot) :
    (∀ c, a.type = AnnKind.text → a.content = some c → c ≠ "" →
      projectAnnot H a = [DrawOp.drawText a.x (H - a.y) (a.size * 8) c (hexToRgb a.color)]) ∧
    (a.type = AnnKind.highlight →
      projectAnnot H a = [DrawOp.drawRectangle a.x (H - a.y - orDefault a.height 20)
        (orDefault a.width 100) (orDefault a.height 20) (hexToRgb a.color) (3 / 10)]) ∧
    (∀ ps, a.type = AnnKind.drawing → a.points = some ps →
      projectAnnot H a = (ps.zip ps.tail).map fun pq =>
        DrawOp.drawLine pq.1.x (H - pq.1.y) pq.2.x (H - pq.2.y)
          (if a.size = 0 then 2 else a.size) (hexToRgb a.color)) ∧
    projectAnnot 800 ⟨"t1", AnnKind.text, 1, 50, 100, none, none, some "note", "#ef4444", 2, none⟩ =
      [DrawOp.drawText 50 700 (2 * 8) "note" (hexToRgb ("#ef4444"))] := by
  refine ⟨?_, ?_, ?_, ?_⟩
  · intro c ht hc hne
    simp [projectAnnot, ht, hc, hne]
  · intro ht
    have hnt : a.type ≠ AnnKind.text := by rw [ht]; intro hcontra; cases hcontra
    simp [projectAnnot, ht, hnt]
  · intro ps ht hps
    have hnt : a.type ≠ AnnKind.text := by rw [ht]; intro hcontra; cases hcontra
    have hnh : a.type ≠ AnnKind.highlight := by rw [ht]; intro hcontra; cases hcontra
    by_cases hlen : 1 < ps.length
    · simp [projectAnnot, ht, hnt, hnh, hps, hlen]
    · rw [zip_tail_short ps hlen]
      simp [projectAnnot, ht, hnt, hnh, hps, hlen]
  · have h800 : (800 : ℚ) - 100 = 700 := by norm_num
    simp [projectAnnot, h800]

theorem export_coordinate_inversion_witness :
    projectAnnot 800 ⟨"t1", AnnKind.text, 1, 50, 100, none, none, some "hi", "#ef4444", 2, none⟩ =
      [DrawOp.drawText 50 700 16 "hi" (hexToRgb ("#ef4444"))] ∧
    projectAnnot 800 ⟨"h1", AnnKind.highlight, 1, 10, 10, some 50, some 30, none, "#ff0000", 2, none⟩ =
      [DrawOp.drawRectangle 10 760 50 30 (hexToRgb ("#ff0000")) (3 / 10)] ∧
    projectAnnot 500 ⟨"d1", AnnKind.drawing, 1, 1, 2, none, none, none, "#3b82f6", 2,
        some [⟨1, 2⟩, ⟨3, 4⟩, ⟨5, 6⟩]⟩ =
      [DrawOp.drawLine 1 498 3 496 2 (hexToRgb ("#3b82f6")),
        DrawOp.drawLine 3 496 5 494 2 (hexToRgb ("#3b82f6"))] := by
  refine ⟨?_, ?_, ?_⟩
  · have h := (export_coordinate_inversion 800
      ⟨"t1", AnnKind.text, 1, 50, 100, none, none, some "hi", "#ef4444", 2, none⟩).1
      "hi" rfl rfl (by decide)
    rw [h]
    norm_num
  · have h := (export_coordinate_inversion 800
      ⟨"h1", AnnKind.highlight, 1, 10, 10, some 50, some 30, none, "#ff0000", 2, none⟩).2.1 rfl
    rw [h]
    norm_num [orDefault]
  · have h := (export_coordinate_inversion 500
      ⟨"d1", AnnKind.drawing, 1, 1, 2, none, none, none, "#3b82f6", 2,
        some [⟨1, 2⟩, ⟨3, 4⟩, ⟨5, 6⟩]⟩).2.2.1 [⟨1, 2⟩, ⟨3, 4⟩, ⟨5, 6⟩] rfl rfl
    rw [h]
    norm_num [List.zip]

/-- Highlight whose stored width and height are present but zero -
reachable through the store's update operation, and falsy in JS. -/
def exZeroSizeHl : Annot :=
  ⟨"z0", AnnKind.highlight, 1, 10, 10, some 0, some 0, none, "#ff0000", 2, none⟩

/-- C2 counterexample: at a highlight with stored width 0 and height 0 on
a page of height 800, the projector emits a 100 x 20 rectangle anchored
at 800 - 10 - 20 = 770 (the `width || 100` / `height || 20` falsy
defaults), not the claimed rectangle of the stored width 0 and height 0
at 800 - 10 - 0 = 790. -/
theorem export_zero_size_highlight :
    projectAnnot 800 exZeroSizeHl =
      [DrawOp.drawRectangle 10 770 100 20 (hexToRgb ("#ff0000")) (3 / 10)] ∧
    projectAnnot 800 exZeroSizeHl ≠
      [DrawOp.drawRectangle 10 790 0 0 (hexToRgb ("#ff0000")) (3 / 10)] := by
  have hcode : projectAnnot 800 exZeroSizeHl =
      [DrawOp.drawRectangle 10 770 100 20 (hexToRgb ("#ff0000")) (3 / 10)] := by
    norm_num [projectAnnot, exZeroSizeHl, orDefault]
    decide
  refine ⟨hcode, ?_⟩
  rw [hcode]
  intro heq
  norm_num at heq

/-- Live highlight rectangle under construction (the currentHighlight
state of annotation-layer.tsx). -/
structure HlRect where
  x : ℚ
  y : ℚ
  width : ℚ
  height : ℚ
  deriving DecidableEq

/-- Transient interaction session state of the AnnotationLayer component
(annotation-layer.tsx lines 30-38): the drawing ref and path ref, the
selection, the drag bookkeeping and the live highlight rectangle. -/
structure LayerState where
  isDrawing : Bool
  currentPath : List Pt
  selectedAnnot : Option String
  isDragging : Bool
  dragStart : Option Pt
  originalPosition : Option Pt
  isHighlighting : Bool
  highlightStart : Option Pt
  currentHighlight : Option HlRect
  deriving DecidableEq

/-- Initial (idle) session state. -/
def initialLayerState : LayerState :=
  ⟨false, [], none, false, none, none, false, none, none⟩

/-- handleMouseDown of annotation-layer.tsx lines 210-273, as a transition
on (session state, store).  The blocking prompt result for the text tool
and the nanoid fresh id are inputs; a null or empty prompt result adds
nothing (JS truthiness).  Note the code sets the drawing ref for every
tool other than select and eraser, before branching on the tool. -/
def handleMouseDown (tool : Tool) (page : ℕ) (coords : Pt) (promptText : Option String)
    (freshId : String) (st : LayerState) (anns : List Annot) : LayerState × List Annot :=
  if tool.type = ToolType.select then
    match findAnnotAtPoint anns page coords with
    | some a =>
        ({ st with selectedAnnot := some a.id, isDragging := true,
                   dragStart := some coords, originalPosition := some ⟨a.x, a.y⟩ }, anns)
    | none => ({ st with selectedAnnot := none }, anns)
  else if tool.type = ToolType.eraser then
    match findAnnotAtPoint anns page coords with
    | some a => ({ st with selectedAnnot := none }, removeAnnot a.id anns)
    | none => (st, anns)
  else
    let st1 := { st with isDrawing := true }
    if tool.type = ToolType.draw then
      ({ st1 with currentPath := [coords] }, anns)
    else if tool.type = ToolType.text then
      match promptText with
      | some t =>
          if t = "" then (st1, anns)
          else (st1, addAnnot anns ⟨freshId, AnnKind.text, page, coords.x, coords.y,
                  none, none, some t, tool.color, tool.size, none⟩)
      | none => (st1, anns)
    else if tool.type = ToolType.highlight then
      ({ st1 with isHighlighting := true, highlightStart := some coords,
                  currentHighlight := some ⟨coords.x, coords.y, 0, 0⟩ }, anns)
    else (st1, anns)

/-- Drawing block of handleMouseMove (annotation-layer.tsx lines 305-308,
reached when neither the dragging nor the highlighting guard fired):
append the point to the path when the drawing ref is set and the tool is
draw. -/
def moveDrawPart (tool : Tool) (coords : Pt) (st : LayerState) (anns : List Annot) :
    LayerState × List Annot :=
  if st.isDrawing && decide (tool.type = ToolType.draw) then
    ({ st with currentPath := st.currentPath ++ [coords] }, anns)
  else (st, anns)

/-- Highlighting block of handleMouseMove (annotation-layer.tsx lines
291-303): recompute the live rectangle as the normalized box of the
anchor and the current point. -/
def moveHighlightPart (tool : Tool) (coords : Pt) (st : LayerState) (anns : List Annot) :
    LayerState × List Annot :=
  match st.isHighlighting, st.highlightStart with
  | true, some hs =>
      ({ st with currentHighlight := some ⟨min hs.x coords.x, min hs.y coords.y,
          |coords.x - hs.x|, |coords.y - hs.y|⟩ }, anns)
  | _, _ => moveDrawPart tool coords st anns

/-- handleMouseMove of annotation-layer.tsx lines 275-333.  The dragging
guard requires all four pieces of drag state, with the JS truthiness of
the selected id (an empty-string id is falsy and skips the branch); while
dragging it issues a live store update computed from the anchor delta. -/
def handleMouseMove (tool : Tool) (coords : Pt) (s : LayerState × List Annot) :
    LayerState × List Annot :=
  match s.1.isDragging, s.1.selectedAnnot, s.1.dragStart, s.1.originalPosition with
  | true, some selId, some ds, some op =>
      if selId = "" then moveHighlightPart tool coords s.1 s.2
      else (s.1, updateAnnot selId
        { x := some (op.x + (coords.x - ds.x)), y := some (op.y + (coords.y - ds.y)) } s.2)
  | _, _, _, _ => moveHighlightPart tool coords s.1 s.2

/-- handleMouseUp of annotation-layer.tsx lines 335-380.  First the
highlight-commit check (no tool guard), then the highlight state reset;
an active drag ends with an early return; otherwise, with the drawing
ref set, a draw-tool path of more than one point is committed with the
first point as origin, and the drawing state is cleared. -/
def handleMouseUp (tool : Tool) (page : ℕ) (freshId : String)
    (s : LayerState × List Annot) : LayerState × List Annot :=
  let st := s.1
  let anns := s.2
  let anns1 :=
    match st.isHighlighting, st.currentHighlight with
    | true, some h =>
        if 5 < h.width ∧ 5 < h.height then
          addAnnot anns ⟨freshId, AnnKind.highlight, page, h.x, h.y,
            some h.width, some h.height, none, tool.color, tool.size, none⟩
        else anns
    | _, _ => anns
  let st1 := { st with
    isHighlighting := false
    highlightStart := none
    currentHighlight := none }
  if st1.isDragging then
    ({ st1 with isDragging := false, dragStart := none, originalPosition := none }, anns1)
  else if !st1.isDrawing then (st1, anns1)
  else
    let anns2 :=
      match st1.currentPath with
      | p0 :: rest =>
          if tool.type = ToolType.draw ∧ 1 < (p0 :: rest).length then
            addAnnot anns1 ⟨freshId, AnnKind.drawing, page, p0.x, p0.y,
              none, none, none, tool.color, tool.size, some (p0 :: rest)⟩
          else anns1
      | [] => anns1
    ({ st1 with isDrawing := false, currentPath := [] }, anns2)

/-- C3: highlight commit threshold.  On pointer-up of a highlight gesture
the live rectangle is committed to the store exactly when its width and
height are both strictly greater than 5; otherwise the store is exactly
unchanged. -/
theorem highlight_commit_threshold (tool : Tool) (page : ℕ) (fid : String)
    (st : LayerState) (anns : List Annot) (x y w h : ℚ)
    (htool : tool.type = ToolType.highlight)
    (hst : st.isHighlighting = true)
    (hcur : st.currentHighlight = some ⟨x, y, w, h⟩) :
    ((handleMouseUp tool page fid (st, anns)).2 =
        addAnnot anns ⟨fid, AnnKind.highlight, page, x, y, some w, some h, none,
          tool.color, tool.size, none⟩ ↔ (5 < w ∧ 5 < h)) ∧
    (¬(5 < w ∧ 5 < h) → (handleMouseUp tool page fid (st, anns)).2 = anns) := by
  have hsnd : (handleMouseUp tool page fid (st, anns)).2 =
      if 5 < w ∧ 5 < h then
        addAnnot anns ⟨fid, AnnKind.highlight, page, x, y, some w, some h, none,
          tool.color, tool.size, none⟩
      else anns := by
    unfold handleMouseUp
    cases hdrag : st.isDragging <;> cases hdrw : st.isDrawing <;>
      cases hpath : st.currentPath <;>
      simp [hst, hcur, htool, hdrag, hdrw, hpath]
  refine ⟨⟨?_, ?_⟩, ?_⟩
  · intro heq
    by_contra hcond
    rw [hsnd, if_neg hcond] at heq
    have hlen := congrArg List.length heq
    simp [addAnnot] at hlen
  · intro hcond
    rw [hsnd, if_pos hcond]
  · intro hcond
    rw [hsnd, if_neg hcond]

def hlTool : Tool := ⟨ToolType.highlight, "#ef4444", 2⟩

def stHl6 : LayerState :=
  { initialLayerState with isHighlighting := true, currentHighlight := some ⟨2, 3, 6, 6⟩ }

def stHl4 : LayerState :=
  { initialLayerState with isHighlighting := true, currentHighlight := some ⟨2, 3, 4, 4⟩ }

theorem highlight_commit_threshold_witness :
    (handleMouseUp hlTool 1 ("h1") (stHl6, [])).2 =
      addAnnot [] ⟨"h1", AnnKind.highlight, 1, 2, 3, some 6, some 6, none, "#ef4444", 2, none⟩ ∧
    (handleMouseUp hlTool 1 ("h2") (stHl4, [])).2 = [] := by
  constructor
  · exact (highlight_commit_threshold hlTool 1 ("h1") stHl6 [] 2 3 6 6 rfl rfl rfl).1.mpr
      (by norm_num)
  · exact (highlight_commit_threshold hlTool 1 ("h2") stHl4 [] 2 3 4 4 rfl rfl rfl).2
      (by norm_num)

/-- C4: drawing commit threshold.  On pointer-up of a draw gesture, a
recorded path of exactly one point leaves the store unchanged; a path of
two or more points is committed with the full path in recording order and
the first point as its origin. -/
theorem drawing_commit_threshold (tool : Tool) (page : ℕ) (fid : String)
    (st : LayerState) (anns : List Annot) (p0 : Pt) (rest : List Pt)
    (htool : tool.type = ToolType.draw)
    (hdrw : st.isDrawing = true)
    (hdrag : st.isDragging = false)
    (hhl : st.isHighlighting = false)
    (hpath : st.currentPath = p0 :: rest) :
    (rest = [] → (handleMouseUp tool page fid (st, anns)).2 = anns) ∧
    (rest ≠ [] → (handleMouseUp tool page fid (st, anns)).2 =
        addAnnot anns ⟨fid, AnnKind.drawing, page, p0.x, p0.y, none, none, none,
          tool.color, tool.size, some (p0 :: rest)⟩) := by
  constructor
  · intro hrest
    subst hrest
    unfold handleMouseUp
    simp [hhl, hdrag, hdrw, hpath, htool]
  · intro hrest
    unfold handleMouseUp
    simp [hhl, hdrag, hdrw, hpath, htool]
    intro h2
    exact absurd h2 hrest

def drawTool : Tool := ⟨ToolType.draw, "#3b82f6", 2⟩

def stDraw1 : LayerState :=
  { initialLayerState with isDrawing := true, currentPath := [⟨1, 1⟩] }

def stDraw2 : LayerState :=
  { initialLayerState with isDrawing := true, currentPath := [⟨1, 1⟩, ⟨2, 2⟩] }

theorem drawing_commit_threshold_witness :
    (handleMouseUp drawTool 1 ("d1") (stDraw1, [])).2 = [] ∧
    (handleMouseUp drawTool 1 ("d2") (stDraw2, [])).2 =
      addAnnot [] ⟨"d2", AnnKind.drawing, 1, 1, 1, none, none, none, "#3b82f6", 2,
        some [⟨1, 1⟩, ⟨2, 2⟩]⟩ := by
  constructor
  · exact (drawing_commit_threshold drawTool 1 ("d1") stDraw1 [] ⟨1, 1⟩ []
      rfl rfl rfl rfl rfl).1 rfl
  · exact (drawing_commit_threshold drawTool 1 ("d2") stDraw2 [] ⟨1, 1⟩ [⟨2, 2⟩]
      rfl rfl rfl rfl rfl).2 (by simp)

/-- Highlight gesture in progress: the mouse-down for the highlight tool
set the drawing ref, the highlighting flag and the anchor, and the moves
grew the live rectangle to 10 x 10. -/
def hlGestureState : LayerState :=
  { initialLayerState with
    isDrawing := true
    isHighlighting := true
    highlightStart := some ⟨0, 0⟩
    currentHighlight := some ⟨0, 0, 10, 10⟩ }

/-- C8 failing input: with a highlight gesture in progress and the tool
already changed to select before release, the pointer-up still commits
the in-progress highlight (using the new tool's color) instead of
aborting with the store unchanged; the component also registers no
pointer-leave handler, so leaving the surface resets nothing. -/
theorem tool_change_commits_partial_highlight :
    (handleMouseUp ⟨ToolType.select, "#3b82f6", 2⟩ 1 ("id1") (hlGestureState, [])).2 =
      [⟨"id1", AnnKind.highlight, 1, 0, 0, some 10, some 10, none, "#3b82f6", 2, none⟩] := by
  norm_num [handleMouseUp, hlGestureState, initialLayerState, addAnnot]

theorem applyUpdates_id_of_none (u : AnnotUpdate) (hid : u.id = none) (a : Annot) :
    (applyUpdates u a).id = a.id := by
  simp [applyUpdates, hid]

theorem updateAnnot_xy_collapse (i : String) (nx ny mx my : ℚ) (anns : List Annot) :
    updateAnnot i { x := some nx, y := some ny }
      (updateAnnot i { x := some mx, y := some my } anns) =
    updateAnnot i { x := some nx, y := some ny } anns := by
  unfold updateAnnot
  rw [List.map_map]
  apply List.map_congr_left
  intro a _
  by_cases h : a.id = i
  · simp [Function.comp, h, applyUpdates]
  · simp [Function.comp, h]

theorem handleMouseMove_drag (tool : Tool) (coords : Pt) (st : LayerState)
    (anns : List Annot) (selId : String) (ds op : Pt)
    (hA : st.isDragging = true) (hB : st.selectedAnnot = some selId)
    (hC : st.dragStart = some ds) (hD : st.originalPosition = some op)
    (hne : selId ≠ "") :
    handleMouseMove tool coords (st, anns) =
      (st, updateAnnot selId
        { x := some (op.x + (coords.x - ds.x)), y := some (op.y + (coords.y - ds.y)) } anns) := by
  unfold handleMouseMove
  simp [hA, hB, hC, hD, hne]

theorem dragMoves_store (tool : Tool) (st : LayerState) (selId : String) (ds op : Pt)
    (hA : st.isDragging = true) (hB : st.selectedAnnot = some selId)
    (hC : st.dragStart = some ds) (hD : st.originalPosition = some op)
    (hne : selId ≠ "") (ms : List Pt) (l : Pt) :
    ∀ anns : List Annot,
      List.foldl (fun s q => handleMouseMove tool q s) (st, anns) (ms ++ [l]) =
        (st, updateAnnot selId
          { x := some (op.x + (l.x - ds.x)), y := some (op.y + (l.y - ds.y)) } anns) := by
  induction ms with
  | nil =>
    intro anns
    simp only [List.nil_append, List.foldl_cons, List.foldl_nil]
    exact handleMouseMove_drag tool l st anns selId ds op hA hB hC hD hne
  | cons q ms ih =>
    intro anns
    simp only [List.cons_append, List.foldl_cons]
    rw [handleMouseMove_drag tool q st anns selId ds op hA hB hC hD hne]
    rw [ih]
    rw [updateAnnot_xy_collapse]

theorem countP_updateAnnot (i j : String) (u : AnnotUpdate) (hid : u.id = none)
    (anns : List Annot) :
    (updateAnnot i u anns).countP (fun b => decide (b.id = j)) =
      anns.countP (fun b => decide (b.id = j)) := by
  unfold updateAnnot
  induction anns with
  | nil => rfl
  | cons b t ih =>
    rw [List.map_cons, List.countP_cons, List.countP_cons, ih]
    congr 1
    by_cases h : b.id = i
    · simp [h, applyUpdates_id_of_none u hid]
    · simp [h]

theorem find_updateAnnot (i : String) (u : AnnotUpdate) (hid : u.id = none)
    (anns : List Annot) (a : Annot)
    (hf : anns.find? (fun b => decide (b.id = i)) = some a) :
    (updateAnnot i u anns).find? (fun b => decide (b.id = i)) =
      some (applyUpdates u a) := by
  unfold updateAnnot
  induction anns with
  | nil => simp at hf
  | cons b t ih =>
    by_cases h : b.id = i
    · rw [List.find?_cons_of_pos _ (by simp [h])] at hf
      cases hf
      rw [List.map_cons]
      rw [List.find?_cons_of_pos _ (by simp [h, applyUpdates_id_of_none u hid])]
      simp [h]
    · rw [List.find?_cons_of_neg _ (by simp [h])] at hf
      rw [List.map_cons, List.find?_cons_of_neg _ (by simp [h])]
      exact ih hf

theorem find_of_mem_countP_one (anns : List Annot) (a : Annot)
    (hmem : a ∈ anns) (hcount : anns.countP (fun b => decide (b.id = a.id)) = 1) :
    anns.find? (fun b => decide (b.id = a.id)) = some a := by
  induction anns with
  | nil => simp at hmem
  | cons b t ih =>
    by_cases h : b.id = a.id
    · rw [List.countP_cons_of_pos _ _ (by simp [h])] at hcount
      rw [List.find?_cons_of_pos _ (by simp [h])]
      rcases List.mem_cons.mp hmem with rfl | hmt
      · rfl
      · exfalso
        have hpos : 0 < t.countP (fun b => decide (b.id = a.id)) :=
          List.countP_pos_iff.mpr ⟨a, hmt, by simp⟩
        omega
    · rw [List.countP_cons_of_neg _ _ (by simp [h])] at hcount
      rw [List.find?_cons_of_neg _ (by simp [h])]
      rcases List.mem_cons.mp hmem with rfl | hmt
      · exact absurd rfl h
      · exact ih hmt hcount

theorem findAnnotAtPoint_mem (anns : List Annot) (page : ℕ) (p : Pt) (a : Annot)
    (h : findAnnotAtPoint anns page p = some a) : a ∈ anns := by
  unfold findAnnotAtPoint at h
  cases hf : anns.reverse.find? (fun b =>
      decide (b.page = page ∧ b.type = AnnKind.text) && isPointInTextAnnot p b) with
  | some b =>
    rw [hf] at h
    dsimp only at h
    cases h
    exact List.mem_reverse.mp (List.mem_of_find?_eq_some hf)
  | none =>
    rw [hf] at h
    dsimp only at h
    exact List.mem_reverse.mp (List.mem_of_find?_eq_some h)

/-- C9: drag preserves identity.  A select-tool pointer-down that hits a
uniquely identified record, followed by any nonempty chain of
pointer-moves (no pointer-up), yields a store of the same length in which
exactly one record carries that id, and that record differs from the
original only in its origin, which equals the original position plus the
accumulated delta of the last pointer position against the anchor. -/
theorem drag_preserves_identity (tool : Tool) (page : ℕ) (p0 l : Pt) (ms : List Pt)
    (ptxt : Option String) (fid : String) (st0 : LayerState)
    (anns : List Annot) (a : Annot)
    (htool : tool.type = ToolType.select)
    (hhit : findAnnotAtPoint anns page p0 = some a)
    (hne : a.id ≠ "")
    (hcount : anns.countP (fun b => decide (b.id = a.id)) = 1) :
    (List.foldl (fun s q => handleMouseMove tool q s)
        (handleMouseDown tool page p0 ptxt fid st0 anns) (ms ++ [l])).2.length =
      anns.length ∧
    (List.foldl (fun s q => handleMouseMove tool q s)
        (handleMouseDown tool page p0 ptxt fid st0 anns) (ms ++ [l])).2.countP
        (fun b => decide (b.id = a.id)) = 1 ∧
    (List.foldl (fun s q => handleMouseMove tool q s)
        (handleMouseDown tool page p0 ptxt fid st0 anns) (ms ++ [l])).2.find?
        (fun b => decide (b.id = a.id)) =
      some { a with x := a.x + (l.x - p0.x), y := a.y + (l.y - p0.y) } := by
  have hdown : handleMouseDown tool page p0 ptxt fid st0 anns =
      ({ st0 with
          selectedAnnot := some a.id
          isDragging := true
          dragStart := some p0
          originalPosition := some ⟨a.x, a.y⟩ }, anns) := by
    unfold handleMouseDown
    simp [htool, hhit]
  have hfold := dragMoves_store tool
      { st0 with
        selectedAnnot := some a.id
        isDragging := true
        dragStart := some p0
        originalPosition := some ⟨a.x, a.y⟩ }
      a.id p0 ⟨a.x, a.y⟩ rfl rfl rfl rfl hne ms l anns
  rw [hdown, hfold]
  refine ⟨?_, ?_, ?_⟩
  · simp [updateAnnot]
  · exact (countP_updateAnnot a.id a.id _ rfl anns).trans hcount
  · have hfind : anns.find? (fun b => decide (b.id = a.id)) = some a :=
      find_of_mem_countP_one anns a (findAnnotAtPoint_mem anns page p0 a hhit) hcount
    rw [find_updateAnnot a.id _ rfl anns a hfind]
    rfl

def selTool : Tool := ⟨ToolType.select, "#ef4444", 2⟩

def exDragHl : Annot :=
  ⟨"a1", AnnKind.highlight, 1, 10, 10, some 50, some 30, none, "#ef4444", 2, none⟩

theorem drag_preserves_identity_witness :
    (List.foldl (fun s q => handleMouseMove selTool q s)
        (handleMouseDown selTool 1 ⟨10, 10⟩ none ("n1") initialLayerState [exDragHl])
        ([] ++ [⟨15, 15⟩])).2.find? (fun b => decide (b.id = exDragHl.id)) =
      some { exDragHl with
        x := exDragHl.x + ((15 : ℚ) - 10), y := exDragHl.y + ((15 : ℚ) - 10) } := by
  have hhit : findAnnotAtPoint [exDragHl] 1 ⟨10, 10⟩ = some exDragHl := by
    unfold findAnnotAtPoint
    rw [show ([exDragHl] : List Annot).reverse = [exDragHl] from rfl]
    rw [List.find?_cons_of_neg _ (by simp [exDragHl, isPointInTextAnnot])]
    rw [List.find?_nil]
    rw [List.find?_cons_of_pos _ ?hpos]
    case hpos =>
      rw [decide_eq_true_eq]
      norm_num [exDragHl, orDefault]
  exact (drag_preserves_identity selTool 1 ⟨10, 10⟩ ⟨15, 15⟩ [] none ("n1")
      initialLayerState [exDragHl] exDragHl rfl hhit (by decide) (by decide)).2.2
